import Mathlib

/-!
# Verification of the profit ZeroMQ Runner–Worker dispatch protocol

Shallow embedding of `profit/run/zeromq.py`:

* `ZeroMQRunnerInterface.handle_msg` (the coordinator's message router) is
  modelled as a pure function `handle_msg` on an explicit `RunTable` state.
  Byte strings are modelled as `List Nat` (each entry one byte).  An uncaught
  Python exception (`ValueError` from `int()`, `IndexError`/`ValueError` from
  numpy indexing or `np.frombuffer`) is modelled as the result `none`; a
  normal return is `some (state, replies)` where `replies` is the list of
  multipart messages passed to `socket.send_multipart`.
* `ZeroMQWorkerInterface.request` (the Lazy-Pirate retry loop) is modelled as
  a fuel-indexed function `request` over an environment `env : Nat → Net`
  giving, for each attempt, whether the poll timed out or which multipart
  reply arrived.  `ReqOutcome.running` means the fuel ran out with the loop
  still going (the real loop would still be iterating).
* The fixed-layout binary record codec used on the wire (numpy record bytes,
  decoded by `np.frombuffer` with a dtype rebuilt from the JSON schema text)
  is modelled by `encode_record` / `decode_record` over an explicit list of
  `Field`s; a scalar value is identified with its bit pattern, a `Nat` below
  `256 ^ itemsize`, laid out little-endian as numpy does on the wire.
-/

namespace Profit

/-! ## Wire codec: fields, records and their fixed-layout binary encoding -/

/-- One column of a structured record: a name, the byte width of one scalar
element (numpy `itemsize`, e.g. 8 for `f8`/`u8`) and an optional array shape
(`[]` for a plain scalar).  This models one `(name, dtype, shape?)` entry of
`input_vars` / `output_vars`. -/
structure Field where
  name : String
  itemsize : Nat
  shape : List Nat
  deriving DecidableEq, Repr

/-- Number of scalar elements of a field: the product of its shape
(1 for a scalar field, numpy convention). -/
def Field.count (f : Field) : Nat := f.shape.prod

/-- Bytes occupied by one field inside a packed record. -/
def Field.nbytes (f : Field) : Nat := f.itemsize * f.count

/-- Total packed `itemsize` of a record described by `fields`
(numpy packed structured dtype, `align=False`). -/
def recordNbytes (fields : List Field) : Nat := (fields.map Field.nbytes).sum

/-- Little-endian byte encoding of one scalar bit pattern into `n` bytes. -/
def encodeScalar : Nat → Nat → List Nat
  | 0, _ => []
  | n + 1, v => v % 256 :: encodeScalar n (v / 256)

/-- Little-endian decoding of a byte list back into a scalar bit pattern. -/
def decodeScalar : List Nat → Nat
  | [] => 0
  | b :: bs => b + 256 * decodeScalar bs

/-- A record conforming to `fields`: one value list per field, holding
`Field.count` scalars, each fitting into `itemsize` bytes. -/
def conforms : List Field → List (List Nat) → Bool
  | [], [] => true
  | f :: fs, v :: vs =>
      v.length = f.count && v.all (fun x => x < 256 ^ f.itemsize) && conforms fs vs
  | _, _ => false

/-- Packed binary encoding of a record (`record.tobytes()` for a numpy
structured scalar): fields in declared order, scalars little-endian, no
padding and no length prefixes. -/
def encode_record : List Field → List (List Nat) → List Nat
  | [], _ => []
  | _, [] => []
  | f :: fs, v :: vs => (v.map (encodeScalar f.itemsize)).flatten ++ encode_record fs vs

/-- Decode `count` scalars of width `itemsize` from the front of a byte list,
returning the scalars and the remaining bytes. -/
def decodeScalars (itemsize : Nat) : Nat → List Nat → Option (List Nat × List Nat)
  | 0, bs => some ([], bs)
  | c + 1, bs =>
      if itemsize ≤ bs.length then
        match decodeScalars itemsize c (bs.drop itemsize) with
        | some (vs, rest) => some (decodeScalar (bs.take itemsize) :: vs, rest)
        | none => none
      else none

/-- Decode a packed record from exactly the given bytes; fails
(`MalformedPayload`) if the byte count does not match the layout. -/
def decode_record : List Field → List Nat → Option (List (List Nat))
  | [], [] => some []
  | [], _ :: _ => none
  | f :: fs, bs =>
      match decodeScalars f.itemsize f.count bs with
      | some (v, rest) =>
          match decode_record fs rest with
          | some vs => some (v :: vs)
          | none => none
      | none => none

/-- `np.frombuffer(bytes, dtype=fields)[0]`: requires a nonzero byte count
that is a multiple of the record size (else `ValueError`), then yields the
first record of the buffer. -/
def frombuffer1 (fields : List Field) (bs : List Nat) : Option (List (List Nat)) :=
  if recordNbytes fields = 0 then none
  else if bs.length ≠ 0 ∧ bs.length % recordNbytes fields = 0 then
    decode_record fields (bs.take (recordNbytes fields))
  else none

/-- `np.frombuffer(bytes, dtype=fields)` assigned into a single structured
array element: broadcasting requires the buffer to hold exactly one record
(`ValueError` otherwise). -/
def frombufferExact (fields : List Field) (bs : List Nat) : Option (List (List Nat)) :=
  if recordNbytes fields = 0 then none
  else if bs.length = recordNbytes fields then decode_record fields bs
  else none

/-- `np.zeros(1, dtype=fields)[0]`: the all-zero record of a layout. -/
def zeroRecord (fields : List Field) : List (List Nat) :=
  fields.map fun f => List.replicate f.count 0

/-- ASCII bytes of a string. -/
def strBytes (s : String) : List Nat := s.toList.map Char.toNat

/-- Serialize one string: length byte then character bytes (part of the
schema text modelling `json.dumps`). -/
def encStr (s : String) : List Nat := s.length :: strBytes s

/-- Serialize one field descriptor. -/
def encodeField (f : Field) : List Nat :=
  encStr f.name ++ f.itemsize :: f.shape.length :: f.shape

/-- Models `json.dumps(vars).encode()`: a self-describing byte serialization
of the ordered `(name, dtype, shape)` tuples of a schema. -/
def encodeFields (fs : List Field) : List Nat :=
  fs.length :: (fs.map encodeField).flatten

/-- Split off the first `n` bytes, failing if fewer are available. -/
def splitBytes (n : Nat) (bs : List Nat) : Option (List Nat × List Nat) :=
  if n ≤ bs.length then some (bs.take n, bs.drop n) else none

/-- Parse one field descriptor, returning it and the remaining bytes. -/
def decodeOneField (bs : List Nat) : Option (Field × List Nat) :=
  match bs with
  | [] => none
  | nameLen :: bs1 =>
      match splitBytes nameLen bs1 with
      | none => none
      | some (nameBytes, bs2) =>
          match bs2 with
          | [] => none
          | itemsize :: bs3 =>
              match bs3 with
              | [] => none
              | shapeLen :: bs4 =>
                  match splitBytes shapeLen bs4 with
                  | none => none
                  | some (shape, rest) =>
                      some (⟨String.mk (nameBytes.map Char.ofNat), itemsize, shape⟩, rest)

/-- Parse `c` field descriptors. -/
def decodeFieldsAux : Nat → List Nat → Option (List Field × List Nat)
  | 0, bs => some ([], bs)
  | c + 1, bs =>
      match decodeOneField bs with
      | none => none
      | some (f, rest) =>
          match decodeFieldsAux c rest with
          | none => none
          | some (fs, rest2) => some (f :: fs, rest2)

/-- Models `json.loads(text)` plus the worker-side tuple conversion: recover
the ordered field list from the schema text, failing (`ValueError`) on
malformed input. -/
def decodeFields (bs : List Nat) : Option (List Field) :=
  match bs with
  | [] => none
  | c :: rest =>
      match decodeFieldsAux c rest with
      | some (fs, []) => some fs
      | _ => none

/-! ## Byte-level integer parsing and numpy indexing -/

/-- Value of one ASCII decimal digit byte, if it is one. -/
def digitVal (b : Nat) : Option Nat :=
  if 48 ≤ b ∧ b ≤ 57 then some (b - 48) else none

/-- Fold ASCII digit bytes into a natural number; any non-digit fails. -/
def parseDigits (bs : List Nat) : Option Nat :=
  bs.foldl
    (fun acc b =>
      match acc, digitVal b with
      | some a, some d => some (10 * a + d)
      | _, _ => none)
    (some 0)

/-- Python `int()` on an ASCII byte string: an optional minus sign followed
by a nonempty digit run; anything else raises `ValueError` (`none`).
(Python additionally tolerates surrounding whitespace, a `+` sign and inner
underscores; none of those forms occur in this protocol's addresses.) -/
def parseIntBytes (bs : List Nat) : Option Int :=
  match bs with
  | [] => none
  | 45 :: rest =>
      match rest with
      | [] => none
      | _ => (parseDigits rest).map fun n => -(n : Int)
  | _ => (parseDigits bs).map fun n => (n : Int)

/-- numpy index resolution on an axis of length `n`: indices in `[0, n)` are
used directly, indices in `[-n, 0)` address from the end, anything else
raises `IndexError` (`none`). -/
def resolveIdx (n : Nat) (i : Int) : Option Nat :=
  if 0 ≤ i then (if i < (n : Int) then some i.toNat else none)
  else (if -(n : Int) ≤ i then some (n - i.natAbs) else none)

/-- `l[i]` with numpy index semantics. -/
def npGet {α : Type} (l : List α) (i : Int) : Option α :=
  match resolveIdx l.length i with
  | some n => l.get? n
  | none => none

/-- `l[i] = a` with numpy index semantics. -/
def npSet {α : Type} (l : List α) (i : Int) (a : α) : Option (List α) :=
  match resolveIdx l.length i with
  | some n => some (l.set n a)
  | none => none

/-! ## Coordinator: RunTable state and `ZeroMQRunnerInterface.handle_msg` -/

/-- The 4-byte address tag `b"req_"`. -/
def reqTag : List Nat := strBytes "req_"

/-- Verb frames. -/
def readyVerb : List Nat := strBytes "READY"

def dataVerb : List Nat := strBytes "DATA"

def timeVerb : List Nat := strBytes "TIME"

def dieVerb : List Nat := strBytes "DIE"

/-- The acknowledgement frame `b"ACK"`. -/
def ackBytes : List Nat := strBytes "ACK"

/-- The coordinator's per-run state: `self.input`, `self.output` (structured
arrays of records, one per run), and the internal bookkeeping arrays
`self.internal["DONE"]`, `self.internal["TIME"]`, `self.internal["FLAGS"]`,
together with the campaign schemas `self.input_vars` / `self.output_vars`. -/
structure RunTable where
  inputVars : List Field
  outputVars : List Field
  input : List (List (List Nat))
  output : List (List (List Nat))
  done : List Bool
  time : List Nat
  flags : List Nat
  deriving DecidableEq, Repr

/-- All per-run arrays of the table have the campaign size `N`
(true by construction of `RunnerInterface`). -/
def WF (s : RunTable) (N : Nat) : Prop :=
  s.input.length = N ∧ s.output.length = N ∧ s.done.length = N ∧
    s.time.length = N ∧ s.flags.length = N

instance (s : RunTable) (N : Nat) : Decidable (WF s N) := by
  unfold WF; infer_instance

/-- The RunTable at campaign start: inputs filled by the external sampler,
outputs zeroed, `DONE` false, `TIME` and `FLAGS` zero. -/
def initTable (ivars ovars : List Field) (inputs : List (List (List Nat))) : RunTable :=
  { inputVars := ivars, outputVars := ovars, input := inputs,
    output := List.replicate inputs.length (zeroRecord ovars),
    done := List.replicate inputs.length false,
    time := List.replicate inputs.length 0,
    flags := List.replicate inputs.length 0 }

/-- The `READY` branch of `handle_msg`: read the run's input record, reply
with the schemas and the input bytes, set the `ASSIGNED` bit `0x02`. -/
def handleREADY (s : RunTable) (address : List Nat) (run_id : Int) :
    Option (RunTable × List (List (List Nat))) :=
  match npGet s.input run_id, npGet s.flags run_id with
  | some inRec, some fl =>
      match npSet s.flags run_id (fl ||| 0x02) with
      | some flags' =>
          some ({ s with flags := flags' },
            [[address, [], encodeFields s.inputVars,
              encode_record s.inputVars inRec, encodeFields s.outputVars]])
      | none => none
  | _, _ => none

/-- The `DATA` branch of `handle_msg`: decode `msg[1]` as one output record,
store it, set `DONE` and the `COMPLETED` bit `0x08`, acknowledge. -/
def handleDATA (s : RunTable) (address : List Nat) (run_id : Int)
    (rest : List (List Nat)) : Option (RunTable × List (List (List Nat))) :=
  match rest.head? with
  | none => none
  | some payload =>
    match frombufferExact s.outputVars payload with
    | none => none
    | some outRec =>
      match npSet s.output run_id outRec, npSet s.done run_id true,
          npGet s.flags run_id with
      | some output', some done', some fl =>
          match npSet s.flags run_id (fl ||| 0x08) with
          | some flags' =>
              some ({ s with output := output', done := done', flags := flags' },
                [[address, [], ackBytes]])
          | none => none
      | _, _, _ => none

/-- The `TIME` branch of `handle_msg`: decode `msg[1]` as one 8-byte
unsigned integer, store it, acknowledge. -/
def handleTIME (s : RunTable) (address : List Nat) (run_id : Int)
    (rest : List (List Nat)) : Option (RunTable × List (List (List Nat))) :=
  match rest.head? with
  | none => none
  | some payload =>
    if payload.length = 8 then
      match npSet s.time run_id (decodeScalar payload) with
      | some time' => some ({ s with time := time' }, [[address, [], ackBytes]])
      | none => none
    else none

/-- The `DIE` branch of `handle_msg`: set the `TERMINATED` bit `0x04` and
acknowledge. -/
def handleDIE (s : RunTable) (address : List Nat) (run_id : Int) :
    Option (RunTable × List (List (List Nat))) :=
  match npGet s.flags run_id with
  | some fl =>
      match npSet s.flags run_id (fl ||| 0x04) with
      | some flags' => some ({ s with flags := flags' }, [[address, [], ackBytes]])
      | none => none
  | none => none

/-- `ZeroMQRunnerInterface.handle_msg(address, msg)`.

Result `some (s, replies)` is a normal return leaving state `s` after sending
each multipart message in `replies`; `none` is an uncaught exception (which
in the source propagates out of `poll`, so no reply is sent and no state
mutation survives on every `none` path).  Faithful to the source:

* only the first 4 bytes are compared against `b"req_"`; on mismatch the
  message is logged and ignored (no reply, no mutation);
* `run_id = int(address[4:])` may raise `ValueError`;
* array accesses use numpy index semantics (negative wrap, `IndexError`);
* `msg[0]` on an empty multipart raises `IndexError` (in the debug log line);
* `DATA`/`TIME` read `msg[1]` (`IndexError` when absent) and decode it via
  `np.frombuffer` before assigning into a single array element. -/
def handle_msg (s : RunTable) (address : List Nat) (msg : List (List Nat)) :
    Option (RunTable × List (List (List Nat))) :=
  if address.take 4 = reqTag then
    match parseIntBytes (address.drop 4) with
    | none => none
    | some run_id =>
      match msg with
      | [] => none
      | verb :: rest =>
        if verb = readyVerb then handleREADY s address run_id
        else if verb = dataVerb then handleDATA s address run_id rest
        else if verb = timeVerb then handleTIME s address run_id rest
        else if verb = dieVerb then handleDIE s address run_id
        else some (s, [])
  else
    some (s, [])

/-- Handle a sequence of inbound messages in order; an uncaught exception
aborts the loop. -/
def handle_msgs (s : RunTable) : List (List Nat × List (List Nat)) → Option RunTable
  | [] => some s
  | (a, m) :: rest =>
      match handle_msg s a m with
      | some (s', _) => handle_msgs s' rest
      | none => none

/-! ## Worker: `ZeroMQWorkerInterface.request` (Lazy-Pirate pattern) -/

/-- What the network does on one attempt of the loop: the poll either times
out, or a multipart reply (at least one frame, as ZeroMQ guarantees)
arrives within the timeout. -/
inductive Net where
  | timeout : Net
  | reply (first : List Nat) (rest : List (List Nat)) : Net
  deriving DecidableEq, Repr

/-- Observable worker-side state: connection status, number of sockets
created (`connect` calls), messages sent, sleeps performed, and the
input/output records set by a successful `READY`. -/
structure WorkerSt where
  connected : Bool
  connects : Nat
  sends : Nat
  sleeps : Nat
  input : Option (List (List Nat))
  output : Option (List (List Nat))
  deriving DecidableEq, Repr

/-- `self.connect()`: create a socket and connect it. -/
def connectW (st : WorkerSt) : WorkerSt :=
  { st with connected := true, connects := st.connects + 1 }

/-- `self.disconnect()`: close the socket. -/
def disconnectW (st : WorkerSt) : WorkerSt :=
  { st with connected := false }

/-- Parse a `READY` reply: exactly three frames
`input_descr, input_data, output_descr = response` (a different count raises
`ValueError`, caught as a malformed reply), decode the two schemas, then
`np.frombuffer(input_data, dtype=input_descr)[0]`.  On success returns the
worker's new input record and zeroed output record. -/
def parseREADY (frames : List (List Nat)) : Option (List (List Nat) × List (List Nat)) :=
  match frames with
  | [d1, dat, d2] =>
      match decodeFields d1, decodeFields d2 with
      | some ifs, some ofs =>
          match frombuffer1 ifs dat with
          | some inRec => some (inRec, zeroRecord ofs)
          | none => none
      | _, _ => none
  | _ => none

/-- Outcome of `request`: normal return, `ConnectionError` raised,
`ValueError` for an unknown verb, or fuel exhausted with the loop still
running. -/
inductive ReqOutcome where
  | ok : ReqOutcome
  | connError : ReqOutcome
  | invalidVerb : ReqOutcome
  | running : ReqOutcome
  deriving DecidableEq, Repr

/-- The body of the Lazy-Pirate loop of `request`, one fuel unit per
iteration.  `attempt` indexes the environment; `tries` is the retry counter.
Each iteration: send the request; on a reply, parse it (`READY` via
`parseREADY`, other verbs must be exactly `ACK`) and return on success,
else fall through with `tries` unchanged; on a timeout, increment `tries`
and sleep.  Then, if `tries >= retries + 1`, disconnect and raise
`ConnectionError`; otherwise close and reopen the socket and loop. -/
def requestLoop (req : String) (retries : Nat) (env : Nat → Net) :
    Nat → Nat → WorkerSt → Nat → ReqOutcome × WorkerSt
  | _, _, st, 0 => (.running, st)
  | attempt, tries, st, fuel + 1 =>
      let st1 : WorkerSt := { st with sends := st.sends + 1 }
      match env attempt with
      | .reply first rest =>
          if req = "READY" then
            match parseREADY (first :: rest) with
            | some (inRec, outRec) =>
                (.ok, { st1 with input := some inRec, output := some outRec })
            | none =>
                if retries + 1 ≤ tries then (.connError, disconnectW st1)
                else requestLoop req retries env (attempt + 1) tries
                  (connectW (disconnectW st1)) fuel
          else
            if first = ackBytes then (.ok, st1)
            else
              if retries + 1 ≤ tries then (.connError, disconnectW st1)
              else requestLoop req retries env (attempt + 1) tries
                (connectW (disconnectW st1)) fuel
      | .timeout =>
          let st2 : WorkerSt := { st1 with sleeps := st1.sleeps + 1 }
          if retries + 1 ≤ tries + 1 then (.connError, disconnectW st2)
          else requestLoop req retries env (attempt + 1) (tries + 1)
            (connectW (disconnectW st2)) fuel

/-- `ZeroMQWorkerInterface.request(request)`: first connect if not connected,
then reject verbs outside `{READY, DATA, TIME}` with `ValueError`, then run
the Lazy-Pirate loop with `tries = 0`. -/
def request (req : String) (retries : Nat) (env : Nat → Net) (st : WorkerSt)
    (fuel : Nat) : ReqOutcome × WorkerSt :=
  let st1 := if st.connected then st else connectW st
  if req = "READY" ∨ req = "DATA" ∨ req = "TIME" then
    requestLoop req retries env 0 0 st1 fuel
  else
    (.invalidVerb, st1)

/-- A reply that the worker accepts for the given verb: for `READY` the
three-frame schema/data parse succeeds, for other verbs the first frame is
exactly `ACK`. -/
def goodReply (req : String) (first : List Nat) (rest : List (List Nat)) : Bool :=
  if req = "READY" then (parseREADY (first :: rest)).isSome
  else first = ackBytes

/-! ## Codec lemmas and the round-trip law -/

theorem encodeScalar_length (n v : Nat) : (encodeScalar n v).length = n := by
  induction n generalizing v with
  | zero => rfl
  | succ n ih => simp [encodeScalar, ih]

theorem decodeScalar_encodeScalar (n v : Nat) (h : v < 256 ^ n) :
    decodeScalar (encodeScalar n v) = v := by
  induction n generalizing v with
  | zero =>
      have : v = 0 := Nat.lt_one_iff.mp (by simpa using h)
      simp [encodeScalar, decodeScalar, this]
  | succ n ih =>
      have hdiv : v / 256 < 256 ^ n := by
        rw [Nat.div_lt_iff_lt_mul (by norm_num)]
        calc v < 256 ^ (n + 1) := h
          _ = 256 ^ n * 256 := by ring
      simp [encodeScalar, decodeScalar, ih _ hdiv, Nat.mod_add_div]

theorem take_len_append {α : Type} (l1 l2 : List α) (n : Nat) (h : l1.length = n) :
    (l1 ++ l2).take n = l1 := by
  subst h; simp

theorem drop_len_append {α : Type} (l1 l2 : List α) (n : Nat) (h : l1.length = n) :
    (l1 ++ l2).drop n = l2 := by
  subst h; simp

theorem decodeScalars_encode (k : Nat) (v : List Nat) (rest : List Nat)
    (hall : ∀ x ∈ v, x < 256 ^ k) :
    decodeScalars k v.length ((v.map (encodeScalar k)).flatten ++ rest) = some (v, rest) := by
  induction v with
  | nil => simp [decodeScalars]
  | cons x v ih =>
      have hx : x < 256 ^ k := hall x (by simp)
      have hlen : (encodeScalar k x).length = k := encodeScalar_length k x
      have hle : k ≤ (encodeScalar k x ++ ((v.map (encodeScalar k)).flatten ++ rest)).length := by
        simp [hlen]
      simp only [List.map_cons, List.flatten_cons, List.length_cons, List.append_assoc]
      rw [decodeScalars, if_pos hle, take_len_append _ _ _ hlen, drop_len_append _ _ _ hlen,
        ih (fun y hy => hall y (by simp [hy])), decodeScalar_encodeScalar k x hx]

theorem flatten_map_enc_length (k : Nat) (v : List Nat) :
    ((v.map (encodeScalar k)).flatten).length = k * v.length := by
  induction v with
  | nil => simp
  | cons x v ih => simp [ih, encodeScalar_length, Nat.mul_succ, Nat.add_comm]

theorem encode_record_length (fs : List Field) (r : List (List Nat))
    (h : conforms fs r = true) :
    (encode_record fs r).length = recordNbytes fs := by
  induction fs generalizing r with
  | nil =>
      cases r with
      | nil => rfl
      | cons _ _ => simp [conforms] at h
  | cons f fs ih =>
      cases r with
      | nil => simp [conforms] at h
      | cons v vs =>
          simp only [conforms, Bool.and_eq_true, decide_eq_true_eq] at h
          obtain ⟨⟨hlen, _⟩, hrest⟩ := h
          simp only [encode_record, List.length_append, flatten_map_enc_length,
            ih vs hrest, recordNbytes, List.map_cons, List.sum_cons, Field.nbytes, hlen]

/-- Core of the round-trip law: decoding the packed encoding of a conforming
record under the same schema recovers the record. -/
theorem decode_record_encode_record (fs : List Field) (r : List (List Nat))
    (h : conforms fs r = true) :
    decode_record fs (encode_record fs r) = some r := by
  induction fs generalizing r with
  | nil =>
      cases r with
      | nil => rfl
      | cons _ _ => simp [conforms] at h
  | cons f fs ih =>
      cases r with
      | nil => simp [conforms] at h
      | cons v vs =>
          simp only [conforms, Bool.and_eq_true, decide_eq_true_eq, List.all_eq_true] at h
          obtain ⟨⟨hlen, hall⟩, hrest⟩ := h
          simp only [encode_record, decode_record]
          rw [show f.count = v.length from hlen.symm,
            decodeScalars_encode f.itemsize v _ hall]
          simp [ih vs hrest]

/-- C8: for every schema and every record conforming to it, decoding the
encoded byte representation under the same schema yields the original record:
the fixed-layout binary pair (`record.tobytes()` on the coordinator,
`np.frombuffer` with the decoded dtype on the worker) is a round trip for
every supported field width and shape. -/
theorem codec_roundtrip (fs : List Field) (r : List (List Nat))
    (h : conforms fs r = true) :
    decode_record fs (encode_record fs r) = some r ∧
      (0 < recordNbytes fs → frombuffer1 fs (encode_record fs r) = some r) := by
  have hlen := encode_record_length fs r h
  refine ⟨decode_record_encode_record fs r h, fun hpos => ?_⟩
  have hne : recordNbytes fs ≠ 0 := Nat.pos_iff_ne_zero.mp hpos
  rw [frombuffer1, if_neg hne, if_pos ⟨by rw [hlen]; exact hne, by rw [hlen]; simp⟩,
    hlen.symm, List.take_length]
  exact decode_record_encode_record fs r h

/-- Witness for C8 at a two-field schema: a shaped 2-byte field and a scalar
1-byte field. -/
theorem codec_roundtrip_witness :
    conforms [⟨"u", 2, [2]⟩, ⟨"v", 1, []⟩] [[258, 3], [7]] = true ∧
      (decode_record [⟨"u", 2, [2]⟩, ⟨"v", 1, []⟩]
          (encode_record [⟨"u", 2, [2]⟩, ⟨"v", 1, []⟩] [[258, 3], [7]]) =
        some [[258, 3], [7]] ∧
      (0 < recordNbytes [⟨"u", 2, [2]⟩, ⟨"v", 1, []⟩] →
        frombuffer1 [⟨"u", 2, [2]⟩, ⟨"v", 1, []⟩]
            (encode_record [⟨"u", 2, [2]⟩, ⟨"v", 1, []⟩] [[258, 3], [7]]) =
          some [[258, 3], [7]])) :=
  ⟨by decide, codec_roundtrip _ _ (by decide)⟩

/-! ## Index-resolution and address lemmas -/

theorem resolveIdx_some_lt (N : Nat) (z : Int) (n : Nat) (h : resolveIdx N z = some n) :
    n < N := by
  unfold resolveIdx at h
  split at h
  · split at h
    · rename_i h0 hlt
      have hn : z.toNat = n := by simpa using h
      omega
    · exact absurd h (by simp)
  · split at h
    · rename_i h0 hge
      have hn : N - z.natAbs = n := by simpa using h
      omega
    · exact absurd h (by simp)

theorem resolveIdx_coe (N i : Nat) (h : i < N) : resolveIdx N (i : Int) = some i := by
  unfold resolveIdx
  rw [if_pos (by positivity), if_pos (by exact_mod_cast h)]
  simp

theorem resolveIdx_negCoe (N k : Nat) (h1 : 1 ≤ k) (h2 : k ≤ N) :
    resolveIdx N (-(k : Int)) = some (N - k) := by
  unfold resolveIdx
  rw [if_neg (by omega), if_pos (by omega)]
  simp

theorem reqTag_take (suffix : List Nat) : (reqTag ++ suffix).take 4 = reqTag := by
  have : reqTag.length = 4 := by decide
  rw [← this, List.take_left]

theorem reqTag_drop (suffix : List Nat) : (reqTag ++ suffix).drop 4 = suffix := by
  have : reqTag.length = 4 := by decide
  rw [← this, List.drop_left]

theorem npGet_resolved {α : Type} (l : List α) (N : Nat) (z : Int) (n : Nat) (x : α)
    (hlen : l.length = N) (hn : resolveIdx N z = some n) (hx : l.get? n = some x) :
    npGet l z = some x := by
  unfold npGet; rw [hlen, hn]; exact hx

theorem npSet_resolved {α : Type} (l : List α) (N : Nat) (z : Int) (n : Nat) (a : α)
    (hlen : l.length = N) (hn : resolveIdx N z = some n) :
    npSet l z a = some (l.set n a) := by
  unfold npSet; rw [hlen, hn]

theorem dataVerb_ne_ready : dataVerb ≠ readyVerb := by decide

theorem timeVerb_ne_ready : timeVerb ≠ readyVerb := by decide

theorem timeVerb_ne_data : timeVerb ≠ dataVerb := by decide

theorem dieVerb_ne_ready : dieVerb ≠ readyVerb := by decide

theorem dieVerb_ne_data : dieVerb ≠ dataVerb := by decide

theorem dieVerb_ne_time : dieVerb ≠ timeVerb := by decide

/-! ## Branch equations of `handle_msg` -/

/-- `READY` from a parseable in-range address: reply with the five frames and
set the `ASSIGNED` bit `0x02`. -/
theorem handle_msg_ready (s : RunTable) (N : Nat) (z : Int) (n : Nat)
    (suffix : List Nat) (inRec : List (List Nat)) (fl : Nat) (rest : List (List Nat))
    (hWF : WF s N) (hp : parseIntBytes suffix = some z) (hn : resolveIdx N z = some n)
    (hin : s.input.get? n = some inRec) (hfl : s.flags.get? n = some fl) :
    handle_msg s (reqTag ++ suffix) (readyVerb :: rest) =
      some ({ s with flags := s.flags.set n (fl ||| 0x02) },
        [[reqTag ++ suffix, [], encodeFields s.inputVars,
          encode_record s.inputVars inRec, encodeFields s.outputVars]]) := by
  obtain ⟨hI, hO, hD, hT, hF⟩ := hWF
  simp [handle_msg, handleREADY, reqTag_take, reqTag_drop, hp,
    npGet_resolved s.input N z n inRec hI hn hin,
    npGet_resolved s.flags N z n fl hF hn hfl,
    npSet_resolved s.flags N z n (fl ||| 0x02) hF hn]

/-- `DATA` with a payload of exactly one output record: store the decoded
record, set `DONE`, set the `COMPLETED` bit `0x08`, acknowledge. -/
theorem handle_msg_data (s : RunTable) (N : Nat) (z : Int) (n : Nat)
    (suffix payload : List Nat) (outRec : List (List Nat)) (fl : Nat)
    (rest : List (List Nat))
    (hWF : WF s N) (hp : parseIntBytes suffix = some z) (hn : resolveIdx N z = some n)
    (hdec : frombufferExact s.outputVars payload = some outRec)
    (hfl : s.flags.get? n = some fl) :
    handle_msg s (reqTag ++ suffix) (dataVerb :: payload :: rest) =
      some ({ s with output := s.output.set n outRec, done := s.done.set n true,
                     flags := s.flags.set n (fl ||| 0x08) },
        [[reqTag ++ suffix, [], ackBytes]]) := by
  obtain ⟨hI, hO, hD, hT, hF⟩ := hWF
  simp [handle_msg, handleDATA, reqTag_take, reqTag_drop, hp, dataVerb_ne_ready, hdec,
    npSet_resolved s.output N z n outRec hO hn,
    npSet_resolved s.done N z n true hD hn,
    npGet_resolved s.flags N z n fl hF hn hfl,
    npSet_resolved s.flags N z n (fl ||| 0x08) hF hn]

/-- `TIME` with an 8-byte unsigned payload: store the decoded elapsed time
and acknowledge. -/
theorem handle_msg_time (s : RunTable) (N : Nat) (z : Int) (n : Nat)
    (suffix payload : List Nat) (rest : List (List Nat))
    (hWF : WF s N) (hp : parseIntBytes suffix = some z) (hn : resolveIdx N z = some n)
    (hlen8 : payload.length = 8) :
    handle_msg s (reqTag ++ suffix) (timeVerb :: payload :: rest) =
      some ({ s with time := s.time.set n (decodeScalar payload) },
        [[reqTag ++ suffix, [], ackBytes]]) := by
  obtain ⟨hI, hO, hD, hT, hF⟩ := hWF
  simp [handle_msg, handleTIME, reqTag_take, reqTag_drop, hp, timeVerb_ne_ready, timeVerb_ne_data,
    hlen8, npSet_resolved s.time N z n (decodeScalar payload) hT hn]

/-- `DIE`: set the `TERMINATED` bit `0x04` and acknowledge. -/
theorem handle_msg_die (s : RunTable) (N : Nat) (z : Int) (n : Nat)
    (suffix : List Nat) (fl : Nat) (rest : List (List Nat))
    (hWF : WF s N) (hp : parseIntBytes suffix = some z) (hn : resolveIdx N z = some n)
    (hfl : s.flags.get? n = some fl) :
    handle_msg s (reqTag ++ suffix) (dieVerb :: rest) =
      some ({ s with flags := s.flags.set n (fl ||| 0x04) },
        [[reqTag ++ suffix, [], ackBytes]]) := by
  obtain ⟨hI, hO, hD, hT, hF⟩ := hWF
  simp [handle_msg, handleDIE, reqTag_take, reqTag_drop, hp, dieVerb_ne_ready, dieVerb_ne_data,
    dieVerb_ne_time,
    npGet_resolved s.flags N z n fl hF hn hfl,
    npSet_resolved s.flags N z n (fl ||| 0x04) hF hn]

/-- A concrete one-run campaign table (one 2-byte input field `x`, one 2-byte
output field `f`, input record `[5]`) used by counterexamples and witnesses. -/
def tbl1 : RunTable :=
  { inputVars := [⟨"x", 2, []⟩], outputVars := [⟨"f", 2, []⟩],
    input := [[[5]]], output := [[[0]]], done := [false], time := [0], flags := [0] }

/-- C1 (counterexample): the claim is false on the code.  The address
`b"req_x"` does not match `"req_" + <integer>`, yet `handle_msg` does not
log-and-ignore it: `int(b"x")` raises an uncaught `ValueError` (`none`), so
the coordinator crashes instead of continuing to serve messages. -/
theorem unknown_address_crash_counterexample :
    handle_msg tbl1 (strBytes "req_x") [readyVerb] = none := by decide

theorem npGet_unresolved {α : Type} (l : List α) (N : Nat) (z : Int)
    (hlen : l.length = N) (h : resolveIdx N z = none) : npGet l z = none := by
  unfold npGet; rw [hlen, h]

theorem npSet_unresolved {α : Type} (l : List α) (N : Nat) (z : Int) (a : α)
    (hlen : l.length = N) (h : resolveIdx N z = none) : npSet l z a = none := by
  unfold npSet; rw [hlen, h]

/-- With an out-of-range run id, `self.input[run_id]` raises `IndexError`
before any reply is sent or any state touched. -/
theorem handleREADY_oob (s : RunTable) (address : List Nat) (N : Nat) (z : Int)
    (hI : s.input.length = N) (hF : s.flags.length = N)
    (h : resolveIdx N z = none) : handleREADY s address z = none := by
  simp [handleREADY, npGet_unresolved s.input N z hI h,
    npGet_unresolved s.flags N z hF h]

/-- With an out-of-range run id, the `DATA` branch raises (`IndexError` on
`msg[1]`, `ValueError` in `np.frombuffer`, or `IndexError` on the array
write) — it never returns normally. -/
theorem handleDATA_oob (s : RunTable) (address : List Nat) (N : Nat) (z : Int)
    (rest : List (List Nat)) (hO : s.output.length = N) (hD : s.done.length = N)
    (hF : s.flags.length = N) (h : resolveIdx N z = none) :
    handleDATA s address z rest = none := by
  cases hh : rest.head? with
  | none => simp [handleDATA, hh]
  | some payload =>
      cases hfe : frombufferExact s.outputVars payload with
      | none => simp [handleDATA, hh, hfe]
      | some outRec =>
          simp [handleDATA, hh, hfe, npSet_unresolved s.output N z outRec hO h,
            npSet_unresolved s.done N z true hD h, npGet_unresolved s.flags N z hF h]

/-- With an out-of-range run id, the `TIME` branch raises — it never returns
normally. -/
theorem handleTIME_oob (s : RunTable) (address : List Nat) (N : Nat) (z : Int)
    (rest : List (List Nat)) (hT : s.time.length = N)
    (h : resolveIdx N z = none) : handleTIME s address z rest = none := by
  cases hh : rest.head? with
  | none => simp [handleTIME, hh]
  | some payload =>
      by_cases hl : payload.length = 8 <;>
        simp [handleTIME, hh, hl,
          npSet_unresolved s.time N z (decodeScalar payload) hT h]

/-- With an out-of-range run id, the `DIE` branch raises `IndexError` — it
never returns normally. -/
theorem handleDIE_oob (s : RunTable) (address : List Nat) (N : Nat) (z : Int)
    (hF : s.flags.length = N) (h : resolveIdx N z = none) :
    handleDIE s address z = none := by
  simp [handleDIE, npGet_unresolved s.flags N z hF h]

/-- C1 (amended): a message whose sender address does not begin with the
four bytes `b"req_"` is logged and ignored: no reply, no RunTable mutation,
and `handle_msg` returns normally.  A message whose address is `"req_"` plus
a parseable integer but whose verb is none of `READY`/`DATA`/`TIME`/`DIE` is
likewise logged and ignored — no reply, no mutation, no crash — even when
the run id is out of range, because the id is never used as an index.
Crash-freedom fails in exactly two situations, in which `handle_msg` still
sends no reply and mutates nothing but raises an uncaught exception instead
of continuing: a parsed run id outside `[-size, size)` together with a
recognized verb (numpy `IndexError`), and an address beginning with `req_`
whose remainder is not a parseable integer (`ValueError` from `int()`). -/
theorem bad_sender_handling (s : RunTable) (N : Nat) (z : Int)
    (address suffix verb : List Nat) (msg rest : List (List Nat)) :
    (address.take 4 ≠ reqTag → handle_msg s address msg = some (s, [])) ∧
      (parseIntBytes suffix = some z →
        verb ≠ readyVerb → verb ≠ dataVerb → verb ≠ timeVerb → verb ≠ dieVerb →
        handle_msg s (reqTag ++ suffix) (verb :: rest) = some (s, [])) ∧
      (WF s N → parseIntBytes suffix = some z → resolveIdx N z = none →
        (verb = readyVerb ∨ verb = dataVerb ∨ verb = timeVerb ∨ verb = dieVerb) →
        handle_msg s (reqTag ++ suffix) (verb :: rest) = none) ∧
      (parseIntBytes suffix = none →
        handle_msg s (reqTag ++ suffix) msg = none) := by
  refine ⟨?_, ?_, ?_, ?_⟩
  · intro h
    unfold handle_msg
    rw [if_neg h]
  · intro hp h1 h2 h3 h4
    simp [handle_msg, reqTag_take, reqTag_drop, hp, h1, h2, h3, h4]
  · intro hWF hp hres hverb
    obtain ⟨hI, hO, hD, hT, hF⟩ := hWF
    rcases hverb with hv | hv | hv | hv <;> subst hv
    · simp [handle_msg, reqTag_take, reqTag_drop, hp,
        handleREADY_oob s (reqTag ++ suffix) N z hI hF hres]
    · simp [handle_msg, reqTag_take, reqTag_drop, hp, dataVerb_ne_ready,
        handleDATA_oob s (reqTag ++ suffix) N z rest hO hD hF hres]
    · simp [handle_msg, reqTag_take, reqTag_drop, hp, timeVerb_ne_ready,
        timeVerb_ne_data, handleTIME_oob s (reqTag ++ suffix) N z rest hT hres]
    · simp [handle_msg, reqTag_take, reqTag_drop, hp, dieVerb_ne_ready,
        dieVerb_ne_data, dieVerb_ne_time,
        handleDIE_oob s (reqTag ++ suffix) N z hF hres]
  · intro hp
    simp [handle_msg, reqTag_take, reqTag_drop, hp]

/-- Witness for the amended C1, exercising all four cases on the one-run
table: address `b"worker7"` (ignored), `req_7` with unknown verb `FOO`
(ignored, id out of range but unused), `req_7` with `READY` (crash), and
`req_x` (parse failure, crash). -/
theorem bad_sender_handling_witness :
    ((strBytes "worker7").take 4 ≠ reqTag ∧
      handle_msg tbl1 (strBytes "worker7") [readyVerb] = some (tbl1, [])) ∧
      (parseIntBytes (strBytes "7") = some (7 : Int) ∧
        handle_msg tbl1 (reqTag ++ strBytes "7") [strBytes "FOO"] = some (tbl1, [])) ∧
      (WF tbl1 1 ∧ resolveIdx 1 (7 : Int) = none ∧
        handle_msg tbl1 (reqTag ++ strBytes "7") [readyVerb] = none) ∧
      (parseIntBytes (strBytes "x") = none ∧
        handle_msg tbl1 (reqTag ++ strBytes "x") [readyVerb] = none) :=
  ⟨⟨by decide,
      (bad_sender_handling tbl1 1 7 (strBytes "worker7") (strBytes "7")
          (strBytes "FOO") [readyVerb] []).1 (by decide)⟩,
    ⟨by decide,
      (bad_sender_handling tbl1 1 7 (strBytes "worker7") (strBytes "7")
          (strBytes "FOO") [readyVerb] []).2.1 (by decide) (by decide) (by decide)
        (by decide) (by decide)⟩,
    ⟨by decide, by decide,
      (bad_sender_handling tbl1 1 7 (strBytes "worker7") (strBytes "7")
          readyVerb [readyVerb] []).2.2.1 (by decide) (by decide) (by decide)
        (Or.inl rfl)⟩,
    ⟨by decide,
      (bad_sender_handling tbl1 1 7 (strBytes "worker7") (strBytes "x")
          readyVerb [readyVerb] []).2.2.2 (by decide)⟩⟩

/-- C3: a `READY` message from `req_<i>` with `i` in `[0, N)` is answered
with exactly the five frames `[address, empty, input-schema, input-bytes of
run i, output-schema]` and sets run `i`'s `ASSIGNED` bit `0x02`; the `input`,
`output` and `done` arrays are untouched (visible in the state equality) and
the flags of every other run are unchanged. -/
theorem ready_assigns_run (s : RunTable) (N i : Nat) (suffix : List Nat)
    (inRec : List (List Nat)) (fl : Nat)
    (hWF : WF s N) (hi : i < N) (hp : parseIntBytes suffix = some (i : Int))
    (hin : s.input.get? i = some inRec) (hfl : s.flags.get? i = some fl) :
    handle_msg s (reqTag ++ suffix) [readyVerb] =
      some ({ s with flags := s.flags.set i (fl ||| 0x02) },
        [[reqTag ++ suffix, [], encodeFields s.inputVars,
          encode_record s.inputVars inRec, encodeFields s.outputVars]]) ∧
      (∀ j, j ≠ i → (s.flags.set i (fl ||| 0x02)).get? j = s.flags.get? j) :=
  ⟨handle_msg_ready s N (i : Int) i suffix inRec fl [] hWF hp
      (resolveIdx_coe N i hi) hin hfl,
    fun _ hj => List.get?_set_ne _ _ fun h => hj h.symm⟩

/-- Witness for C3 on the one-run table: `READY` from `req_0`. -/
theorem ready_assigns_run_witness :
    WF tbl1 1 ∧ 0 < 1 ∧ parseIntBytes (strBytes "0") = some ((0 : Nat) : Int) ∧
      handle_msg tbl1 (reqTag ++ strBytes "0") [readyVerb] =
        some ({ tbl1 with flags := tbl1.flags.set 0 (0 ||| 0x02) },
          [[reqTag ++ strBytes "0", [], encodeFields tbl1.inputVars,
            encode_record tbl1.inputVars [[5]], encodeFields tbl1.outputVars]]) :=
  ⟨by decide, by decide, by decide,
    (ready_assigns_run tbl1 1 0 (strBytes "0") [[5]] 0 (by decide) (by decide)
      (by decide) (by decide) (by decide)).1⟩

/-- C4: a `DATA` message from `req_<i>` whose payload is exactly one record
of the output schema stores the decoded record as run `i`'s output, sets
`done` and the `COMPLETED` bit `0x08`, and is answered `[address, empty,
ACK]`; a second `DATA` for the same run is accepted again (ACK, no error)
and overwrites the stored output — last write wins. -/
theorem data_reports_and_overwrites (s : RunTable) (N i : Nat)
    (suffix p1 p2 : List Nat) (r1 r2 : List (List Nat)) (fl : Nat)
    (hWF : WF s N) (hi : i < N) (hp : parseIntBytes suffix = some (i : Int))
    (hd1 : frombufferExact s.outputVars p1 = some r1)
    (hd2 : frombufferExact s.outputVars p2 = some r2)
    (hfl : s.flags.get? i = some fl) :
    handle_msg s (reqTag ++ suffix) [dataVerb, p1] =
      some ({ s with output := s.output.set i r1, done := s.done.set i true,
                     flags := s.flags.set i (fl ||| 0x08) },
        [[reqTag ++ suffix, [], ackBytes]]) ∧
      handle_msg { s with output := s.output.set i r1, done := s.done.set i true,
                          flags := s.flags.set i (fl ||| 0x08) }
          (reqTag ++ suffix) [dataVerb, p2] =
        some ({ s with output := (s.output.set i r1).set i r2,
                       done := (s.done.set i true).set i true,
                       flags := (s.flags.set i (fl ||| 0x08)).set i ((fl ||| 0x08) ||| 0x08) },
          [[reqTag ++ suffix, [], ackBytes]]) ∧
      ((s.output.set i r1).set i r2).get? i = some r2 := by
  obtain ⟨hI, hO, hD, hT, hF⟩ := hWF
  refine ⟨handle_msg_data s N (i : Int) i suffix p1 r1 fl [] ⟨hI, hO, hD, hT, hF⟩ hp
      (resolveIdx_coe N i hi) hd1 hfl, ?_, ?_⟩
  · exact handle_msg_data _ N (i : Int) i suffix p2 r2 (fl ||| 0x08) []
      (by simp [WF, hI, hO, hD, hT, hF])
      hp (resolveIdx_coe N i hi) hd2
      (List.get?_set_eq_of_lt _ (by rw [hF]; exact hi))
  · exact List.get?_set_eq_of_lt _ (by simpa [hO] using hi)

/-- Witness for C4 on the one-run table: two `DATA` payloads `[7,0]` then
`[9,0]` for run 0. -/
theorem data_reports_and_overwrites_witness :
    WF tbl1 1 ∧ parseIntBytes (strBytes "0") = some ((0 : Nat) : Int) ∧
      frombufferExact tbl1.outputVars [7, 0] = some [[7]] ∧
      frombufferExact tbl1.outputVars [9, 0] = some [[9]] ∧
      (handle_msg tbl1 (reqTag ++ strBytes "0") [dataVerb, [7, 0]] =
        some ({ tbl1 with output := tbl1.output.set 0 [[7]],
                          done := tbl1.done.set 0 true,
                          flags := tbl1.flags.set 0 (0 ||| 0x08) },
          [[reqTag ++ strBytes "0", [], ackBytes]]) ∧
        ((tbl1.output.set 0 [[7]]).set 0 [[9]]).get? 0 = some [[9]]) :=
  ⟨by decide, by decide, by decide, by decide,
    (data_reports_and_overwrites tbl1 1 0 (strBytes "0") [7, 0] [9, 0] [[7]] [[9]] 0
        (by decide) (by decide) (by decide) (by decide) (by decide) (by decide)).1,
    (data_reports_and_overwrites tbl1 1 0 (strBytes "0") [7, 0] [9, 0] [[7]] [[9]] 0
        (by decide) (by decide) (by decide) (by decide) (by decide) (by decide)).2.2⟩

/-- C9: an address `req_-<k>` with `1 ≤ k ≤ N` passes the tag check and the
integer parse (`int` accepts a negative decimal) and every verb handler then
reads and mutates the entry of run `N - k` through negative numpy indexing;
in particular `DATA` from `req_-1` overwrites the output and done state of
the last run instead of being rejected as out of range. -/
theorem negative_run_id_aliases (s : RunTable) (N k : Nat) (suffix : List Nat)
    (inRec outRec : List (List Nat)) (p t : List Nat) (fl : Nat)
    (hWF : WF s N) (hk1 : 1 ≤ k) (hkN : k ≤ N)
    (hp : parseIntBytes suffix = some (-(k : Int)))
    (hin : s.input.get? (N - k) = some inRec)
    (hdec : frombufferExact s.outputVars p = some outRec)
    (ht8 : t.length = 8)
    (hfl : s.flags.get? (N - k) = some fl) :
    handle_msg s (reqTag ++ suffix) [readyVerb] =
      some ({ s with flags := s.flags.set (N - k) (fl ||| 0x02) },
        [[reqTag ++ suffix, [], encodeFields s.inputVars,
          encode_record s.inputVars inRec, encodeFields s.outputVars]]) ∧
      handle_msg s (reqTag ++ suffix) [dataVerb, p] =
        some ({ s with output := s.output.set (N - k) outRec,
                       done := s.done.set (N - k) true,
                       flags := s.flags.set (N - k) (fl ||| 0x08) },
          [[reqTag ++ suffix, [], ackBytes]]) ∧
      handle_msg s (reqTag ++ suffix) [timeVerb, t] =
        some ({ s with time := s.time.set (N - k) (decodeScalar t) },
          [[reqTag ++ suffix, [], ackBytes]]) ∧
      handle_msg s (reqTag ++ suffix) [dieVerb] =
        some ({ s with flags := s.flags.set (N - k) (fl ||| 0x04) },
          [[reqTag ++ suffix, [], ackBytes]]) :=
  ⟨handle_msg_ready s N (-(k : Int)) (N - k) suffix inRec fl [] hWF hp
      (resolveIdx_negCoe N k hk1 hkN) hin hfl,
    handle_msg_data s N (-(k : Int)) (N - k) suffix p outRec fl [] hWF hp
      (resolveIdx_negCoe N k hk1 hkN) hdec hfl,
    handle_msg_time s N (-(k : Int)) (N - k) suffix t [] hWF hp
      (resolveIdx_negCoe N k hk1 hkN) ht8,
    handle_msg_die s N (-(k : Int)) (N - k) suffix fl [] hWF hp
      (resolveIdx_negCoe N k hk1 hkN) hfl⟩

/-- Witness for C9 on the one-run table: `DATA` from `req_-1` targets run
`1 - 1 = 0`, the last (and only) run. -/
theorem negative_run_id_aliases_witness :
    parseIntBytes (strBytes "-1") = some (-((1 : Nat) : Int)) ∧
      handle_msg tbl1 (reqTag ++ strBytes "-1") [dataVerb, [7, 0]] =
        some ({ tbl1 with output := tbl1.output.set (1 - 1) [[7]],
                          done := tbl1.done.set (1 - 1) true,
                          flags := tbl1.flags.set (1 - 1) (0 ||| 0x08) },
          [[reqTag ++ strBytes "-1", [], ackBytes]]) :=
  ⟨by decide,
    (negative_run_id_aliases tbl1 1 1 (strBytes "-1") [[5]] [[7]] [7, 0]
        [0, 0, 0, 0, 0, 0, 0, 0] 0 (by decide) (by decide) (by decide) (by decide)
        (by decide) (by decide) (by decide) (by decide)).2.1⟩

/-! ## The COMPLETED ↔ done invariant (C5) -/

/-- The `COMPLETED` bit `0x08` of a run's `FLAGS` byte is set exactly when
the run's `DONE` entry is true. -/
def Inv (s : RunTable) : Prop :=
  ∀ i, i < s.flags.length → ((s.flags.getD i 0 &&& 0x08 ≠ 0) ↔ s.done.getD i false = true)

instance (s : RunTable) : Decidable (Inv s) := by
  unfold Inv; infer_instance

theorem and8_ne_iff (a : Nat) : a &&& 0x08 ≠ 0 ↔ a.testBit 3 = true := by
  rw [show (0x08 : Nat) = 2 ^ 3 from by norm_num, Nat.and_two_pow]
  cases h : a.testBit 3 <;> simp

theorem and8_or2 (a : Nat) : ((a ||| 0x02) &&& 0x08 ≠ 0) ↔ (a &&& 0x08 ≠ 0) := by
  rw [and8_ne_iff, and8_ne_iff, Nat.testBit_lor,
    show (0x02 : Nat).testBit 3 = false from by decide]
  simp

theorem and8_or4 (a : Nat) : ((a ||| 0x04) &&& 0x08 ≠ 0) ↔ (a &&& 0x08 ≠ 0) := by
  rw [and8_ne_iff, and8_ne_iff, Nat.testBit_lor,
    show (0x04 : Nat).testBit 3 = false from by decide]
  simp

theorem and8_or8 (a : Nat) : (a ||| 0x08) &&& 0x08 ≠ 0 := by
  rw [and8_ne_iff, Nat.testBit_lor, show (0x08 : Nat).testBit 3 = true from by decide]
  simp

theorem getD_set_self {α : Type} (l : List α) (n : Nat) (a d : α) (h : n < l.length) :
    (l.set n a).getD n d = a := by
  rw [List.getD_eq_getD_get?, List.get?_set_eq_of_lt _ h]
  rfl

theorem getD_set_ne {α : Type} (l : List α) (n i : Nat) (a d : α) (h : n ≠ i) :
    (l.set n a).getD i d = l.getD i d := by
  rw [List.getD_eq_getD_get?, List.getD_eq_getD_get?, List.get?_set_ne _ _ h]

theorem getD_get?_eq {α : Type} (l : List α) (n : Nat) (x d : α)
    (h : l.get? n = some x) : l.getD n d = x := by
  rw [List.getD_eq_getD_get?, h]; rfl

theorem npSet_some_inv {α : Type} (l : List α) (z : Int) (a : α) (l' : List α)
    (h : npSet l z a = some l') :
    ∃ n, resolveIdx l.length z = some n ∧ n < l.length ∧ l' = l.set n a := by
  unfold npSet at h
  split at h
  · rename_i n hn
    exact ⟨n, hn, resolveIdx_some_lt _ _ _ hn, by injection h with h'; exact h'.symm⟩
  · exact absurd h (by simp)

theorem npGet_some_inv {α : Type} (l : List α) (z : Int) (x : α)
    (h : npGet l z = some x) :
    ∃ n, resolveIdx l.length z = some n ∧ n < l.length ∧ l.get? n = some x := by
  unfold npGet at h
  split at h
  · rename_i n hn; exact ⟨n, hn, resolveIdx_some_lt _ _ _ hn, h⟩
  · exact absurd h (by simp)

/-- The `READY` branch keeps the table well-formed and preserves the
`COMPLETED ↔ done` invariant (it only sets bit `0x02`). -/
theorem handleREADY_preserves (s s' : RunTable) (N : Nat) (address : List Nat)
    (z : Int) (replies : List (List (List Nat)))
    (hWF : WF s N) (h : handleREADY s address z = some (s', replies)) :
    WF s' N ∧ (Inv s → Inv s') := by
  obtain ⟨hI, hO, hD, hT, hF⟩ := hWF
  unfold handleREADY at h
  split at h
  · rename_i inRec fl hin hfl
    split at h
    · rename_i flags' hflags
      obtain ⟨nf, hnf, hnfl, hfeq⟩ := npSet_some_inv _ _ _ _ hflags
      obtain ⟨ng, hng, hngl, hgfl⟩ := npGet_some_inv _ _ _ hfl
      rw [hng] at hnf
      injection hnf with hnfeq
      subst hnfeq
      simp only [Option.some_inj, Prod.mk.injEq] at h
      obtain ⟨h1, h2⟩ := h
      subst h1
      refine ⟨⟨hI, hO, hD, hT, by simp [hfeq, hF]⟩, fun hinv j hj => ?_⟩
      simp only [hfeq] at hj ⊢
      rw [List.length_set] at hj
      by_cases hji : j = ng
      · subst hji
        rw [getD_set_self _ _ _ _ hnfl, and8_or2]
        have hfd : s.flags.getD j 0 = fl := getD_get?_eq s.flags j fl 0 hgfl
        have := hinv j hnfl
        rwa [hfd] at this
      · rw [getD_set_ne _ _ _ _ _ fun hh => hji hh.symm]
        exact hinv j hj
    · exact absurd h (by simp)
  · exact absurd h (by simp)

/-- The `DATA` branch keeps the table well-formed and preserves the
invariant (it sets `done` and bit `0x08` together, at the same index). -/
theorem handleDATA_preserves (s s' : RunTable) (N : Nat) (address : List Nat)
    (z : Int) (rest : List (List Nat)) (replies : List (List (List Nat)))
    (hWF : WF s N) (h : handleDATA s address z rest = some (s', replies)) :
    WF s' N ∧ (Inv s → Inv s') := by
  obtain ⟨hI, hO, hD, hT, hF⟩ := hWF
  unfold handleDATA at h
  split at h
  · exact absurd h (by simp)
  · split at h
    · exact absurd h (by simp)
    · rename_i outRec hdec
      split at h
      · rename_i output' done' fl hout hdone hfl
        split at h
        · rename_i flags' hflags
          obtain ⟨n1, hn1, hn1l, he1⟩ := npSet_some_inv _ _ _ _ hout
          obtain ⟨n2, hn2, hn2l, he2⟩ := npSet_some_inv _ _ _ _ hdone
          obtain ⟨n3, hn3, hn3l, he3⟩ := npSet_some_inv _ _ _ _ hflags
          rw [hO] at hn1
          rw [hD] at hn2
          rw [hF] at hn3
          rw [hn1] at hn2 hn3
          injection hn2 with hn2e
          injection hn3 with hn3e
          subst hn2e
          subst hn3e
          simp only [Option.some_inj, Prod.mk.injEq] at h
          obtain ⟨h1, h2⟩ := h
          subst h1
          refine ⟨⟨hI, by simp [he1, hO], by simp [he2, hD],
            hT, by simp [he3, hF]⟩, fun hinv j hj => ?_⟩
          simp only [he2, he3] at hj ⊢
          rw [List.length_set] at hj
          by_cases hji : j = n1
          · subst hji
            rw [getD_set_self _ _ _ _ hn3l,
              getD_set_self _ _ _ _ hn2l]
            simp [and8_or8]
          · rw [getD_set_ne _ _ _ _ _ fun hh => hji hh.symm,
              getD_set_ne _ _ _ _ _ fun hh => hji hh.symm]
            exact hinv j hj
        · exact absurd h (by simp)
      · exact absurd h (by simp)

/-- The `TIME` branch keeps the table well-formed and preserves the
invariant (it touches neither `flags` nor `done`). -/
theorem handleTIME_preserves (s s' : RunTable) (N : Nat) (address : List Nat)
    (z : Int) (rest : List (List Nat)) (replies : List (List (List Nat)))
    (hWF : WF s N) (h : handleTIME s address z rest = some (s', replies)) :
    WF s' N ∧ (Inv s → Inv s') := by
  obtain ⟨hI, hO, hD, hT, hF⟩ := hWF
  unfold handleTIME at h
  split at h
  · exact absurd h (by simp)
  · split at h
    · split at h
      · rename_i time' htime
        obtain ⟨n, hn, hnl, he⟩ := npSet_some_inv _ _ _ _ htime
        simp only [Option.some_inj, Prod.mk.injEq] at h
        obtain ⟨h1, h2⟩ := h
        subst h1
        exact ⟨⟨hI, hO, hD, by simp [he, hT], hF⟩, fun hinv => hinv⟩
      · exact absurd h (by simp)
    · exact absurd h (by simp)

/-- The `DIE` branch keeps the table well-formed and preserves the
invariant (it only sets bit `0x04`). -/
theorem handleDIE_preserves (s s' : RunTable) (N : Nat) (address : List Nat)
    (z : Int) (replies : List (List (List Nat)))
    (hWF : WF s N) (h : handleDIE s address z = some (s', replies)) :
    WF s' N ∧ (Inv s → Inv s') := by
  obtain ⟨hI, hO, hD, hT, hF⟩ := hWF
  unfold handleDIE at h
  split at h
  · rename_i fl hfl
    split at h
    · rename_i flags' hflags
      obtain ⟨nf, hnf, hnfl, hfeq⟩ := npSet_some_inv _ _ _ _ hflags
      obtain ⟨ng, hng, hngl, hgfl⟩ := npGet_some_inv _ _ _ hfl
      rw [hng] at hnf
      injection hnf with hnfeq
      subst hnfeq
      simp only [Option.some_inj, Prod.mk.injEq] at h
      obtain ⟨h1, h2⟩ := h
      subst h1
      refine ⟨⟨hI, hO, hD, hT, by simp [hfeq, hF]⟩, fun hinv j hj => ?_⟩
      simp only [hfeq] at hj ⊢
      rw [List.length_set] at hj
      by_cases hji : j = ng
      · subst hji
        rw [getD_set_self _ _ _ _ hnfl, and8_or4]
        have hfd : s.flags.getD j 0 = fl := getD_get?_eq s.flags j fl 0 hgfl
        have := hinv j hnfl
        rwa [hfd] at this
      · rw [getD_set_ne _ _ _ _ _ fun hh => hji hh.symm]
        exact hinv j hj
    · exact absurd h (by simp)
  · exact absurd h (by simp)

/-- One `handle_msg` step keeps the table well-formed and preserves the
`COMPLETED ↔ done` invariant. -/
theorem handle_msg_preserves (s s' : RunTable) (N : Nat) (address : List Nat)
    (msg : List (List Nat)) (replies : List (List (List Nat)))
    (hWF : WF s N) (h : handle_msg s address msg = some (s', replies)) :
    WF s' N ∧ (Inv s → Inv s') := by
  unfold handle_msg at h
  split at h
  · split at h
    · exact absurd h (by simp)
    · rename_i z hz
      split at h
      · exact absurd h (by simp)
      · rename_i verb rest
        split at h
        · exact handleREADY_preserves s s' N address z replies hWF h
        · split at h
          · exact handleDATA_preserves s s' N address z rest replies hWF h
          · split at h
            · exact handleTIME_preserves s s' N address z rest replies hWF h
            · split at h
              · exact handleDIE_preserves s s' N address z replies hWF h
              · simp only [Option.some_inj, Prod.mk.injEq] at h
                obtain ⟨h1, h2⟩ := h
                subst h1
                exact ⟨hWF, fun hinv => hinv⟩
  · simp only [Option.some_inj, Prod.mk.injEq] at h
    obtain ⟨h1, h2⟩ := h
    subst h1
    exact ⟨hWF, fun hinv => hinv⟩

/-- Handling any list of messages keeps well-formedness and the invariant. -/
theorem handle_msgs_preserves (N : Nat) (msgs : List (List Nat × List (List Nat))) :
    ∀ (s s' : RunTable), WF s N → handle_msgs s msgs = some s' →
      WF s' N ∧ (Inv s → Inv s') := by
  induction msgs with
  | nil =>
      intro s s' hWF h
      injection h with h1
      subst h1
      exact ⟨hWF, fun hinv => hinv⟩
  | cons am rest ih =>
      intro s s' hWF h
      match am, h with
      | (a, m), h =>
        unfold handle_msgs at h
        split at h
        · rename_i smid replies hmid
          obtain ⟨hWF1, hinv1⟩ := handle_msg_preserves s smid N a m replies hWF hmid
          obtain ⟨hWF2, hinv2⟩ := ih smid s' hWF1 h
          exact ⟨hWF2, fun hinv => hinv2 (hinv1 hinv)⟩
        · exact absurd h (by simp)

/-- C5: over any sequence of handled messages, reached from a state
satisfying it, the `COMPLETED` bit `0x08` of a run's `FLAGS` byte is set
exactly when the run's `done` entry is true; the invariant holds of the
campaign-start table; and in particular `READY` followed by that run's
`DATA` and `TIME` messages in either order leaves `COMPLETED` set and
`done = true`. -/
theorem completed_iff_done (ivars ovars : List Field)
    (inputs : List (List (List Nat))) (s s' s1 s2 : RunTable) (N i : Nat)
    (msgs : List (List Nat × List (List Nat))) (suffix p t : List Nat)
    (outRec : List (List Nat)) :
    Inv (initTable ivars ovars inputs) ∧
      (WF s N → Inv s → handle_msgs s msgs = some s' → Inv s') ∧
      (WF s N → i < N → parseIntBytes suffix = some (i : Int) →
        frombufferExact s.outputVars p = some outRec → t.length = 8 →
        (handle_msgs s [(reqTag ++ suffix, [readyVerb]),
            (reqTag ++ suffix, [dataVerb, p]),
            (reqTag ++ suffix, [timeVerb, t])] = some s1 →
          s1.done.getD i false = true ∧ s1.flags.getD i 0 &&& 0x08 ≠ 0) ∧
        (handle_msgs s [(reqTag ++ suffix, [readyVerb]),
            (reqTag ++ suffix, [timeVerb, t]),
            (reqTag ++ suffix, [dataVerb, p])] = some s2 →
          s2.done.getD i false = true ∧ s2.flags.getD i 0 &&& 0x08 ≠ 0)) := by
  refine ⟨?_, ?_, ?_⟩
  · intro j hj
    simp only [initTable] at hj ⊢
    rw [List.length_replicate] at hj
    rw [List.getD_eq_getElem _ _ (by simpa using hj), List.getElem_replicate,
      List.getD_eq_getElem _ _ (by simpa using hj), List.getElem_replicate]
    simp
  · intro hWF hinv h
    exact (handle_msgs_preserves N msgs s s' hWF h).2 hinv
  · intro hWF hi hp hdec ht8
    obtain ⟨hI, hO, hD, hT, hF⟩ := hWF
    have hiF : i < s.flags.length := by rw [hF]; exact hi
    have hiI : i < s.input.length := by rw [hI]; exact hi
    have hiD : i < s.done.length := by rw [hD]; exact hi
    have hfl : s.flags.get? i = some (s.flags.get ⟨i, hiF⟩) := List.get?_eq_get hiF
    have hin : s.input.get? i = some (s.input.get ⟨i, hiI⟩) := List.get?_eq_get hiI
    have hres := resolveIdx_coe N i hi
    have h1 := handle_msg_ready s N (i : Int) i suffix (s.input.get ⟨i, hiI⟩)
      (s.flags.get ⟨i, hiF⟩) [] ⟨hI, hO, hD, hT, hF⟩ hp hres hin hfl
    constructor
    · -- READY, DATA, TIME
      intro hs1
      have h2 := handle_msg_data
        { s with flags := s.flags.set i (s.flags.get ⟨i, hiF⟩ ||| 0x02) } N (i : Int) i
        suffix p outRec (s.flags.get ⟨i, hiF⟩ ||| 0x02) []
        ⟨hI, hO, hD, hT, by rw [List.length_set]; exact hF⟩ hp hres hdec
        (List.get?_set_eq_of_lt _ hiF)
      have h3 := handle_msg_time
        { s with output := s.output.set i outRec, done := s.done.set i true,
                 flags := (s.flags.set i (s.flags.get ⟨i, hiF⟩ ||| 0x02)).set i
                   ((s.flags.get ⟨i, hiF⟩ ||| 0x02) ||| 0x08) } N (i : Int) i
        suffix t []
        ⟨hI, by rw [List.length_set]; exact hO, by rw [List.length_set]; exact hD,
          hT, by rw [List.length_set, List.length_set]; exact hF⟩ hp hres ht8
      simp only [handle_msgs, h1, h2, h3] at hs1
      have hs1' := Option.some.inj hs1
      rw [← hs1']
      constructor
      · exact getD_set_self _ _ _ _ hiD
      · rw [getD_set_self _ _ _ _ (by rw [List.length_set]; exact hiF)]
        exact and8_or8 _
    · -- READY, TIME, DATA
      intro hs2
      have h2 := handle_msg_time
        { s with flags := s.flags.set i (s.flags.get ⟨i, hiF⟩ ||| 0x02) } N (i : Int) i
        suffix t []
        ⟨hI, hO, hD, hT, by rw [List.length_set]; exact hF⟩ hp hres ht8
      have h3 := handle_msg_data
        { s with time := s.time.set i (decodeScalar t),
                 flags := s.flags.set i (s.flags.get ⟨i, hiF⟩ ||| 0x02) } N (i : Int) i
        suffix p outRec (s.flags.get ⟨i, hiF⟩ ||| 0x02) []
        ⟨hI, hO, hD, by rw [List.length_set]; exact hT,
          by rw [List.length_set]; exact hF⟩ hp hres hdec
        (List.get?_set_eq_of_lt _ hiF)
      simp only [handle_msgs, h1, h2, h3] at hs2
      have hs2' := Option.some.inj hs2
      rw [← hs2']
      constructor
      · exact getD_set_self _ _ _ _ hiD
      · rw [getD_set_self _ _ _ _ (by rw [List.length_set]; exact hiF)]
        exact and8_or8 _

/-- Witness for C5: on the one-run table a single `DATA` message yields a
state still satisfying the invariant. -/
theorem completed_iff_done_witness :
    WF tbl1 1 ∧ Inv tbl1 ∧
      handle_msgs tbl1 [(reqTag ++ strBytes "0", [dataVerb, [7, 0]])] =
        some { tbl1 with output := [[[7]]], done := [true], flags := [8] } ∧
      Inv { tbl1 with output := [[[7]]], done := [true], flags := [8] } :=
  ⟨by decide, by decide, by decide,
    (completed_iff_done tbl1.inputVars tbl1.outputVars tbl1.input tbl1
        { tbl1 with output := [[[7]]], done := [true], flags := [8] } tbl1 tbl1 1 0
        [(reqTag ++ strBytes "0", [dataVerb, [7, 0]])] (strBytes "0") [7, 0]
        [0, 0, 0, 0, 0, 0, 0, 0] [[7]]).2.1
      (by decide) (by decide) (by decide)⟩

/-! ## Worker request-loop lemmas -/

/-- If every attempt times out, the loop performs exactly `retries + 1 - t`
further sends and sleeps, reconnects between them, and finally disconnects
and raises `ConnectionError`. -/
theorem requestLoop_all_timeout (req : String) (retries : Nat) (env : Nat → Net) :
    ∀ d a t st fuel, (∀ j, j < d → env (a + j) = .timeout) →
      t + d = retries + 1 → 1 ≤ d → d ≤ fuel →
      requestLoop req retries env a t st fuel =
        (.connError,
          { st with
            connected := false, sends := st.sends + d,
            sleeps := st.sleeps + d, connects := st.connects + (d - 1) }) := by
  intro d
  induction d with
  | zero => intro a t st fuel henv hsum h1 hf; omega
  | succ d ih =>
    intro a t st fuel henv hsum h1 hf
    obtain ⟨fuel', rfl⟩ : ∃ f', fuel = f' + 1 := ⟨fuel - 1, by omega⟩
    have henv0 : env a = .timeout := by simpa using henv 0 (by omega)
    simp only [requestLoop, henv0]
    by_cases hd : d = 0
    · subst hd
      rw [if_pos (by omega)]
      simp [disconnectW]
    · rw [if_neg (by omega)]
      rw [ih (a + 1) (t + 1)
        (connectW (disconnectW { st with sends := st.sends + 1, sleeps := st.sleeps + 1 }))
        fuel'
        (fun j hj => by
          have := henv (j + 1) (by omega)
          simpa [show a + 1 + j = a + (j + 1) from by omega] using this)
        (by omega) (by omega) (by omega)]
      simp only [connectW, disconnectW]
      rw [show st.sends + 1 + d = st.sends + (d + 1) from by omega,
        show st.sleeps + 1 + d = st.sleeps + (d + 1) from by omega,
        show st.connects + 1 + (d - 1) = st.connects + (d + 1 - 1) from by omega]

/-- If the first `m` attempts time out and attempt `m` gets a reply the
worker accepts, the loop returns normally after exactly `m + 1` sends. -/
theorem requestLoop_success (req : String) (retries : Nat) (env : Nat → Net)
    (f : List Nat) (r : List (List Nat)) (hgood : goodReply req f r = true) :
    ∀ m a t st fuel, (∀ j, j < m → env (a + j) = .timeout) →
      env (a + m) = .reply f r → t + m ≤ retries → m + 1 ≤ fuel →
      (requestLoop req retries env a t st fuel).1 = .ok ∧
        (requestLoop req retries env a t st fuel).2.sends = st.sends + (m + 1) := by
  intro m
  induction m with
  | zero =>
    intro a t st fuel henv hrep ht hf
    obtain ⟨fuel', rfl⟩ : ∃ f', fuel = f' + 1 := ⟨fuel - 1, by omega⟩
    rw [Nat.add_zero] at hrep
    simp only [requestLoop, hrep]
    unfold goodReply at hgood
    by_cases hR : req = "READY"
    · rw [if_pos hR] at hgood ⊢
      obtain ⟨⟨inRec, outRec⟩, hpair⟩ := Option.isSome_iff_exists.mp hgood
      rw [hpair]
      exact ⟨rfl, rfl⟩
    · rw [if_neg hR] at hgood ⊢
      have hack : f = ackBytes := by simpa using hgood
      rw [if_pos hack]
      exact ⟨rfl, rfl⟩
  | succ m ih =>
    intro a t st fuel henv hrep ht hf
    obtain ⟨fuel', rfl⟩ : ∃ f', fuel = f' + 1 := ⟨fuel - 1, by omega⟩
    have henv0 : env a = .timeout := by simpa using henv 0 (by omega)
    simp only [requestLoop, henv0]
    rw [if_neg (by omega)]
    have := ih (a + 1) (t + 1)
      (connectW (disconnectW { st with sends := st.sends + 1, sleeps := st.sleeps + 1 }))
      fuel'
      (fun j hj => by
        have := henv (j + 1) (by omega)
        simpa [show a + 1 + j = a + (j + 1) from by omega] using this)
      (by simpa [show a + 1 + m = a + (m + 1) from by omega] using hrep)
      (by omega) (by omega)
    refine ⟨this.1, ?_⟩
    rw [this.2]
    simp [connectW, disconnectW]
    omega

/-- C2: with the socket connected, a request whose every attempt times out
performs exactly `retries + 1` timed-out sends, then closes the connection
and raises `ConnectionError` (sending nothing further); conversely, if only
the first `retries` attempts time out and attempt `retries + 1` receives an
accepted reply, the request returns normally after its `retries + 1` sends
with no error raised. -/
theorem request_retry_exhaustion (req : String) (retries fuel : Nat)
    (envT envS : Nat → Net) (st : WorkerSt) (f : List Nat) (r : List (List Nat))
    (hreq : req = "READY" ∨ req = "DATA" ∨ req = "TIME")
    (hc : st.connected = true)
    (hT : ∀ k, k ≤ retries → envT k = .timeout)
    (hS : ∀ k, k < retries → envS k = .timeout)
    (hSr : envS retries = .reply f r) (hgood : goodReply req f r = true)
    (hfuel : retries + 1 ≤ fuel) :
    request req retries envT st fuel =
      (.connError,
        { st with
          connected := false, sends := st.sends + (retries + 1),
          sleeps := st.sleeps + (retries + 1),
          connects := st.connects + retries }) ∧
      (request req retries envS st fuel).1 = .ok ∧
      (request req retries envS st fuel).2.sends = st.sends + (retries + 1) := by
  refine ⟨?_, ?_⟩
  · unfold request
    rw [if_pos hreq, hc]
    simp only [if_true]
    have := requestLoop_all_timeout req retries envT (retries + 1) 0 0 st fuel
      (fun j hj => by simpa using hT j (by omega)) (by omega) (by omega) hfuel
    simpa [Nat.add_sub_cancel] using this
  · unfold request
    rw [if_pos hreq, hc]
    simp only [if_true]
    exact requestLoop_success req retries envS f r hgood retries 0 0 st fuel
      (fun j hj => by simpa using hS j (by omega)) (by simpa using hSr)
      (by omega) hfuel

/-- The disconnected worker state at session start. -/
def st0 : WorkerSt := ⟨false, 0, 0, 0, none, none⟩

/-- A connected worker state (one socket created, nothing sent yet). -/
def stc : WorkerSt := ⟨true, 1, 0, 0, none, none⟩

/-- Witness for C2: verb `DATA`, one retry, all-timeout responder versus a
responder that times out once and then acknowledges. -/
theorem request_retry_exhaustion_witness :
    (("DATA" : String) = "READY" ∨ ("DATA" : String) = "DATA" ∨
        ("DATA" : String) = "TIME") ∧ stc.connected = true ∧
      goodReply "DATA" ackBytes [] = true ∧
      request "DATA" 1 (fun _ => .timeout) stc 3 =
        (.connError,
          { stc with
            connected := false, sends := stc.sends + (1 + 1),
            sleeps := stc.sleeps + (1 + 1), connects := stc.connects + 1 }) ∧
      (request "DATA" 1 (fun k => if k < 1 then .timeout else .reply ackBytes []) stc 3).1
        = .ok :=
  ⟨by decide, by decide, by decide,
    (request_retry_exhaustion "DATA" 1 3 (fun _ => .timeout)
        (fun k => if k < 1 then .timeout else .reply ackBytes []) stc ackBytes []
        (by decide) (by decide) (fun k hk => rfl)
        (fun k hk => by simp [hk])
        (by decide) (by decide) (by decide)).1,
    (request_retry_exhaustion "DATA" 1 3 (fun _ => .timeout)
        (fun k => if k < 1 then .timeout else .reply ackBytes []) stc ackBytes []
        (by decide) (by decide) (fun k hk => rfl)
        (fun k hk => by simp [hk])
        (by decide) (by decide) (by decide)).2.1⟩

/-- C6: for `DATA`/`TIME`, a reply arriving within the timeout whose first
frame is not exactly `ACK` does not touch the retry counter: the loop
records the send, closes and reopens the socket, and resends the same
request — the iteration is a pure reconnect-and-resend with `tries`
unchanged, so malformed replies never contribute to the `retries + 1`
abandonment threshold. -/
theorem malformed_reply_not_counted (req : String) (retries a t fuel : Nat)
    (env : Nat → Net) (st : WorkerSt) (f : List Nat) (r : List (List Nat))
    (hreq : req = "DATA" ∨ req = "TIME") (henv : env a = .reply f r)
    (hf : f ≠ ackBytes) (ht : t ≤ retries) :
    requestLoop req retries env a t st (fuel + 1) =
      requestLoop req retries env (a + 1) t
        (connectW (disconnectW { st with sends := st.sends + 1 })) fuel := by
  have hR : req ≠ "READY" := by rcases hreq with h | h <;> subst h <;> decide
  simp only [requestLoop, henv]
  rw [if_neg hR, if_neg hf, if_neg (show ¬retries + 1 ≤ t from by omega)]

/-- Witness for C6: a non-ACK reply `[[0]]` on attempt 0 of a `DATA` request. -/
theorem malformed_reply_not_counted_witness :
    ((fun _ : Nat => Net.reply [0] []) 0 = .reply [0] []) ∧ [0] ≠ ackBytes ∧
      requestLoop "DATA" 3 (fun _ => .reply [0] []) 0 0 stc (2 + 1) =
        requestLoop "DATA" 3 (fun _ => .reply [0] []) 1 0
          (connectW (disconnectW { stc with sends := stc.sends + 1 })) 2 :=
  ⟨by decide, by decide,
    malformed_reply_not_counted "DATA" 3 0 0 2 (fun _ => .reply [0] []) stc [0] []
      (by decide) (by decide) (by decide) (by decide)⟩

/-- C7 (counterexample): the claim is false on the code.  Called with the
unknown verb `"EXIT"` on a disconnected worker, `request` raises
`ValueError` — but only after `self.connect()` has run: a socket has been
created and connected (`connects = 1`, `connected = true`), so network I/O
does happen and the worker's state changes before the failure. -/
theorem invalid_verb_counterexample :
    (request "EXIT" 3 (fun _ => .timeout) st0 5).1 = .invalidVerb ∧
      (request "EXIT" 3 (fun _ => .timeout) st0 5).2 ≠ st0 ∧
      (request "EXIT" 3 (fun _ => .timeout) st0 5).2.connected = true ∧
      (request "EXIT" 3 (fun _ => .timeout) st0 5).2.connects = st0.connects + 1 := by
  decide

/-- C7 (amended): a verb outside `{READY, DATA, TIME}` makes `request` raise
`ValueError` before any message is sent (`sends` unchanged, the retry loop
is never entered); the worker state is unchanged when already connected, but
when disconnected the call first connects (creating a socket) because the
connect step precedes the verb check. -/
theorem invalid_verb_rejected (req : String) (retries fuel : Nat) (env : Nat → Net)
    (st : WorkerSt)
    (hreq : ¬(req = "READY" ∨ req = "DATA" ∨ req = "TIME")) :
    request req retries env st fuel =
      (.invalidVerb, if st.connected then st else connectW st) ∧
      (request req retries env st fuel).2.sends = st.sends := by
  constructor
  · unfold request
    rw [if_neg hreq]
  · unfold request
    rw [if_neg hreq]
    by_cases hc : st.connected <;> simp [hc, connectW]

/-- Witness for C7 (amended) at the verb `"EXIT"` on a connected worker. -/
theorem invalid_verb_rejected_witness :
    ¬(("EXIT" : String) = "READY" ∨ ("EXIT" : String) = "DATA" ∨
        ("EXIT" : String) = "TIME") ∧
      request "EXIT" 3 (fun _ => .timeout) stc 5 =
        (.invalidVerb, if stc.connected then stc else connectW stc) :=
  ⟨by decide,
    (invalid_verb_rejected "EXIT" 3 5 (fun _ => .timeout) stc (by decide)).1⟩

/-- With a responder that always replies non-ACK, the loop never terminates:
any amount of fuel is consumed with the outcome still `running`, the retry
counter stays at 0 and no sleep is ever performed. -/
theorem requestLoop_badreply_running (req : String) (retries : Nat) (f : List Nat)
    (r : List (List Nat)) (hR : req ≠ "READY") (hf : f ≠ ackBytes) :
    ∀ fuel a st,
      (requestLoop req retries (fun _ => .reply f r) a 0 st fuel).1 = .running ∧
        (requestLoop req retries (fun _ => .reply f r) a 0 st fuel).2.sleeps =
          st.sleeps := by
  intro fuel
  induction fuel with
  | zero => intro a st; exact ⟨rfl, rfl⟩
  | succ fuel ih =>
    intro a st
    simp only [requestLoop]
    rw [if_neg hR, if_neg hf, if_neg (show ¬retries + 1 ≤ 0 from by omega)]
    simpa [connectW, disconnectW] using
      ih (a + 1) (connectW (disconnectW { st with sends := st.sends + 1 }))

/-- C10: `request` is not guaranteed to terminate.  Against a responder that
always answers within the timeout with a first frame other than `ACK`, a
`DATA` or `TIME` request loops forever: for every fuel bound the loop is
still `running` — it never returns, never raises, and never sleeps (and by
the loop equation of C6 the retry counter is never incremented). -/
theorem malformed_responder_nontermination (req : String) (retries fuel : Nat)
    (f : List Nat) (r : List (List Nat)) (st : WorkerSt)
    (hreq : req = "DATA" ∨ req = "TIME") (hf : f ≠ ackBytes) :
    (request req retries (fun _ => .reply f r) st fuel).1 = .running ∧
      (request req retries (fun _ => .reply f r) st fuel).2.sleeps = st.sleeps := by
  have hR : req ≠ "READY" := by rcases hreq with h | h <;> subst h <;> decide
  have hw : req = "READY" ∨ req = "DATA" ∨ req = "TIME" := Or.inr hreq
  unfold request
  rw [if_pos hw]
  obtain ⟨h1, h2⟩ := requestLoop_badreply_running req retries f r hR hf fuel 0
    (if st.connected then st else connectW st)
  refine ⟨h1, ?_⟩
  rw [h2]
  by_cases hc : st.connected <;> simp [hc, connectW]

/-- Witness for C10: verb `DATA`, responder always replying `[[0]]`, several
fuel values. -/
theorem malformed_responder_nontermination_witness :
    (("DATA" : String) = "DATA" ∨ ("DATA" : String) = "TIME") ∧ [0] ≠ ackBytes ∧
      (request "DATA" 3 (fun _ => .reply [0] []) st0 7).1 = .running ∧
      (request "DATA" 3 (fun _ => .reply [0] []) st0 7).2.sleeps = st0.sleeps :=
  ⟨by decide, by decide,
    (malformed_responder_nontermination "DATA" 3 7 [0] [] st0 (by decide)
      (by decide)).1,
    (malformed_responder_nontermination "DATA" 3 7 [0] [] st0 (by decide)
      (by decide)).2⟩

end Profit
